import Mathlib

/-!
# Verification of the mybestone video indexing and search core

Shallow embedding of `app/database_builder.py`, `app/search_engine.py` and the
search path of `app/main.py`.  Pure fragments of the Python code become Lean
functions; the builder's mutable state (the in-memory FAISS index and the
metadata list) becomes an explicit state record; the on-disk files become an
explicit disk record; exceptions become `Option`.  Machine floats are
modelled as `ℚ`.
-/

/-- One metadata ledger entry, mirroring the dicts stored in `metadata.json`
(`thumbnail_path`, `video_id`, `timestamp`).  `similarity_score` is the key
that the search paths add to a result dict; ledger entries as written by the
builder have it absent (`none`). -/
structure Entry where
  video_id : String
  timestamp : ℚ
  thumbnail_path : String
  similarity_score : Option ℚ := none
deriving DecidableEq, Inhabited

/-! ## Frame sampling (`DatabaseBuilder.process_video`, `main.process_videos`)

The source keeps a running `frame_count` and samples the current frame when
`frame_count % int(fps * 5) == 0`. -/

/-- The sampling step `int(fps * 5)` of the source.  Python `int()` truncates
toward zero; for the nonnegative frame rates OpenCV reports this is the
floor.  `Rat.floor` is used so that the definition evaluates. -/
def sampleStep (fps : ℚ) : ℤ := (fps * 5).floor

/-- Code condition: frame `n` is sampled iff `n % int(fps * 5) == 0`
(`database_builder.py` line 102, `main.py` line 216). -/
def sampled (fps : ℚ) (n : ℕ) : Bool := (n : ℤ) % sampleStep fps == 0

/-- The spec's sampling formula, stated with `round` instead of `int`:
`frame_count mod round(fps * interval) == 0` at the default 5 second
interval. -/
def sampledSpec (fps : ℚ) (n : ℕ) : Bool := (n : ℤ) % round (fps * 5) == 0

/-- Positions of the sampled frames of a video with `totalFrames` frames. -/
def sampledPositions (totalFrames : ℕ) (fps : ℚ) : List ℕ :=
  (List.range totalFrames).filter (fun n => sampled fps n)

/-- Timestamps (`frame_count / fps`) of the sampled frames. -/
def sampleTimestamps (totalFrames : ℕ) (fps : ℚ) : List ℚ :=
  (sampledPositions totalFrames fps).map (fun n => (n : ℚ) / fps)

/-! ## The builder (`app/database_builder.py`) -/

/-- A raw decoded video frame, as handed around by the builder.  The pixel
contents are abstracted to the embedding the CLIP encoder would produce from
them (`emb`); `corrupt` records whether processing the frame raises (a
malformed image makes `cv2`/`PIL`/the model raise inside `process_frame`,
whose bare `except` then returns `None`). -/
structure RawFrame where
  emb : List ℚ
  corrupt : Bool
deriving DecidableEq, Inhabited

/-- One video asset: identifier (the filename stem), its decoded frame
sequence (`cap.read()` yields `frames[n]` at `frame_count = n`), and the
frame rate OpenCV reports for it. -/
structure Video where
  video_id : String
  frames : List RawFrame
  fps : ℚ
deriving DecidableEq, Inhabited

/-- A sampled frame queued into `frames_batch`: the enclosing video's id, the
timestamp `frame_count / fps` it was sampled at, and the raw frame data. -/
structure Frame where
  video_id : String
  timestamp : ℚ
  emb : List ℚ
  corrupt : Bool
deriving DecidableEq, Inhabited

/-- Deterministic thumbnail path `thumbnails/{video_id}_{timestamp}.jpg`
derived from the key, as in `process_frame`. -/
def thumbnailPath (video_id : String) (timestamp : ℚ) : String :=
  "thumbnails/" ++ video_id ++ "_" ++ toString timestamp ++ ".jpg"

/-- The dict returned by a successful `DatabaseBuilder.process_frame`. -/
structure FrameResult where
  thumbnail_path : String
  video_id : String
  timestamp : ℚ
  embedding : List ℚ
deriving DecidableEq, Inhabited

/-- The result dict a successful `process_frame` call returns for a frame. -/
def frameResultOf (f : Frame) : FrameResult :=
  { thumbnail_path := thumbnailPath f.video_id f.timestamp
    video_id := f.video_id
    timestamp := f.timestamp
    embedding := f.emb }

/-- `DatabaseBuilder.process_frame`: write the thumbnail, encode the frame,
return the result dict; any exception is caught and `None` is returned, so a
malformed frame yields `none` and nothing else. -/
def process_frame (f : Frame) : Option FrameResult :=
  if f.corrupt then none else some (frameResultOf f)

/-- The ledger entry appended for a frame result: the result dict with the
`embedding` key deleted (`process_batch` line 145). -/
def resultEntry (r : FrameResult) : Entry :=
  { video_id := r.video_id
    timestamp := r.timestamp
    thumbnail_path := r.thumbnail_path }

/-- The builder's in-memory state: the rows of the FAISS `IndexFlatL2`
(`self.index`) and the metadata list (`self.metadata`). -/
structure BuilderState where
  index : List (List ℚ)
  metadata : List Entry
deriving DecidableEq, Inhabited

/-- The persistent state: the two database files (absent or their contents)
and the set of thumbnail files present on disk. -/
structure DiskState where
  indexFile : Option (List (List ℚ))
  metadataFile : Option (List Entry)
  thumbFiles : List String
deriving DecidableEq, Inhabited

/-- `DatabaseBuilder.__init__`: a fresh empty `faiss.IndexFlatL2(512)` is
created (the persisted index file is never read back), while the metadata
list is loaded from `metadata.json` when that file exists. -/
def builderInit (disk : DiskState) : BuilderState :=
  { index := []
    metadata := disk.metadataFile.getD [] }

/-- Collecting one future's result in `process_batch`: on `None` the frame is
skipped, otherwise the embedding is added to the index, the thumbnail file
now exists on disk, and the entry (without the embedding) is appended to the
metadata list. -/
def ingest (p : BuilderState × DiskState) (r : Option FrameResult) :
    BuilderState × DiskState :=
  match r with
  | none => p
  | some r =>
    ({ index := p.1.index ++ [r.embedding]
       metadata := p.1.metadata ++ [resultEntry r] },
     { p.2 with thumbFiles := p.2.thumbFiles ++ [r.thumbnail_path] })

/-- `DatabaseBuilder.process_batch`: one future per frame is submitted to the
pool, and the results are collected by iterating the `futures` list in
submission order; each future's value is `process_frame` of its frame. -/
def process_batch (frames_batch : List Frame) (p : BuilderState × DiskState) :
    BuilderState × DiskState :=
  (frames_batch.map process_frame).foldl ingest p

/-- The futures array of one batch after the pool has completed the tasks
listed in `σ` (in that completion order): slot `i` holds `process_frame` of
frame `i` once task `i` has completed, independently of when it ran. -/
def runSchedule (frames_batch : List Frame) (σ : List ℕ) :
    List (Option (Option FrameResult)) :=
  σ.foldl (fun slots i => slots.set i (some (process_frame (frames_batch.getD i default))))
    (List.replicate frames_batch.length none)

/-- `process_batch` with an explicit completion schedule `σ`: the collection
loop still reads the futures in submission order (`future.result()` waits for
the value; under a schedule that completes every task the default branch is
never taken). -/
def process_batch_sched (frames_batch : List Frame) (σ : List ℕ)
    (p : BuilderState × DiskState) : BuilderState × DiskState :=
  ((runSchedule frames_batch σ).map (fun s => s.getD none)).foldl ingest p

/-- Fuel-based chunking helper; with `fuel ≥ l.length` and `0 < n` it splits
`l` into consecutive chunks of size `n` (last one possibly shorter). -/
def chunksOfAux (n : ℕ) : ℕ → List α → List (List α)
  | 0, _ => []
  | _, [] => []
  | fuel + 1, l => l.take n :: chunksOfAux n fuel (l.drop n)

/-- The batching of `process_video`: frames are accumulated into
`frames_batch` and flushed every `batch_size` frames, the remainder at the
end — i.e. the sampled frames are processed in consecutive chunks of
`batch_size`. -/
def chunksOf (n : ℕ) (l : List α) : List (List α) :=
  chunksOfAux n l.length l

/-- `self.batch_size = 32`. -/
def batch_size : ℕ := 32

/-- The sampled-frame sequence of a video: the frames at the positions
selected by the sampling condition, tagged with the video id and the
timestamp `frame_count / fps`. -/
def sampleFrames (v : Video) : List Frame :=
  (v.frames.enum.filter (fun q => sampled v.fps q.1)).map
    (fun q => { video_id := v.video_id
                timestamp := (q.1 : ℚ) / v.fps
                emb := q.2.emb
                corrupt := q.2.corrupt })

/-- `DatabaseBuilder.process_video` on an openable video: process the sampled
frames in batches of `batch_size`; the deletion of the source file
(`video_path.unlink()`, line 123) is recorded in the event model below. -/
def process_video (v : Video) (p : BuilderState × DiskState) :
    BuilderState × DiskState :=
  (chunksOf batch_size (sampleFrames v)).foldl (fun q b => process_batch b q) p

/-- Failure injection for the checkpoint: whether `faiss.write_index`
resp. the `metadata.json` write raises on this call. -/
structure WriteFailure where
  index_write_fails : Bool
  metadata_write_fails : Bool
deriving DecidableEq, Inhabited

/-- No disk failure. -/
def noFail : WriteFailure := ⟨false, false⟩

/-- `DatabaseBuilder.save_progress`: write the FAISS index to
`faiss_index.bin`, then the metadata list to `metadata.json` — directly to
the final paths, with no temporary file and no rename.  Both writes sit in a
`try` whose bare `except` only logs, so the function always returns normally;
if the index write raises nothing is written, and if the metadata write
raises the index file has already been replaced. -/
def save_progress (w : WriteFailure) (st : BuilderState) (disk : DiskState) :
    DiskState :=
  if w.index_write_fails then disk
  else
    let disk1 := { disk with indexFile := some st.index }
    if w.metadata_write_fails then disk1
    else { disk1 with metadataFile := some st.metadata }

/-- `DatabaseBuilder.build_database`: process each pending video, calling
`save_progress` after each one. -/
def build_database (w : WriteFailure) (videos : List Video)
    (p : BuilderState × DiskState) : BuilderState × DiskState :=
  videos.foldl (fun q v =>
    let q1 := process_video v q
    (q1.1, save_progress w q1.1 q1.2)) p

/-- `DatabaseBuilder.verify_database`: fail if either database file is
missing; reload the FAISS index from disk and fail if its row count differs
from the length of the in-memory metadata list; fail if a thumbnail path
referenced by the in-memory metadata does not exist; succeed otherwise.
(The metadata file itself is only required to exist — it is not re-read.) -/
def verify_database (st : BuilderState) (disk : DiskState) : Bool :=
  match disk.indexFile, disk.metadataFile with
  | some loaded, some _ =>
    if loaded.length ≠ st.metadata.length then false
    else st.metadata.all (fun e => disk.thumbFiles.contains e.thumbnail_path)
  | _, _ => false

/-! ## Event traces of the build (for the checkpoint-ordering claims)

`process_video` ends with `video_path.unlink()`; `build_database` calls
`save_progress` only after `process_video` has returned.  The constructors
for temporary-file writes and renames exist so that their absence from every
trace the code produces is expressible; the code never emits them. -/

/-- Observable build events. -/
inductive Ev where
  | frameDone (video_id : String) (timestamp : ℚ)
  | deleteSource (video_id : String)
  | writeTmpIndexFile
  | writeTmpMetadataFile
  | renameIndexFile
  | renameMetadataFile
  | writeIndexFile
  | writeMetadataFile
deriving DecidableEq, Inhabited

/-- Events of `process_video`: the sampled frames are processed, then the
source file is deleted (line 123) — before the function returns, hence
before any persistence happens. -/
def process_video_events (v : Video) : List Ev :=
  ((sampleFrames v).map (fun f => Ev.frameDone f.video_id f.timestamp)) ++
    [Ev.deleteSource v.video_id]

/-- Events of `save_progress` (success case): the two direct writes, in
order; no temporary file, no rename. -/
def save_progress_events : List Ev := [Ev.writeIndexFile, Ev.writeMetadataFile]

/-- Events of `build_database`. -/
def build_database_events (videos : List Video) : List Ev :=
  videos.foldl (fun acc v => acc ++ process_video_events v ++ save_progress_events) []

/-! ## The search engine (`app/search_engine.py`) -/

/-- The state `SearchEngine.__init__` builds: the reloaded index rows and the
reloaded metadata list. -/
structure EngineState where
  index : List (List ℚ)
  metadata : List Entry
deriving DecidableEq, Inhabited

/-- `SearchEngine.__init__`: read both files back, unconditionally — there is
no call to any verification and no consistency check; loading fails only if
a file is missing. -/
def searchEngineInit (disk : DiskState) : Option EngineState :=
  match disk.indexFile, disk.metadataFile with
  | some idx, some md => some { index := idx, metadata := md }
  | _, _ => none

/-- Python list indexing: nonnegative indices from the front, negative
indices from the back, `IndexError` (here `none`) otherwise. -/
def pyGet (l : List α) (i : ℤ) : Option α :=
  if i < 0 then
    (if 0 ≤ (l.length : ℤ) + i then l.get? ((l.length : ℤ) + i).toNat else none)
  else l.get? i.toNat

/-- The distance-to-similarity mapping `1 / (1 + distance)` of the result
loop. -/
def similarity (d : ℚ) : ℚ := 1 / (1 + d)

/-- The result-formatting loop of `SearchEngine.search` over the
`(distance, row)` pairs `self.index.search` returned: rows `≥ len(metadata)`
are skipped by the `if idx < len(self.metadata)` guard; for the others the
entry is looked up (Python indexing), copied, and the similarity score is
set on the copy.  `none` models an exception escaping the loop (an
`IndexError` from a negative row reaching beyond the front of the list). -/
def formatResults (md : List Entry) : List (ℚ × ℤ) → Option (List Entry)
  | [] => some []
  | (d, idx) :: rest =>
    if idx < (md.length : ℤ) then
      match pyGet md idx with
      | none => none
      | some e =>
        (formatResults md rest).map
          (fun rs => { e with similarity_score := some (similarity d) } :: rs)
    else formatResults md rest

/-- `SearchEngine.search` after the query has been embedded and the index
queried: format the returned pairs; the surrounding `try`/`except` turns any
exception into an empty result list. -/
def search (md : List Entry) (pairs : List (ℚ × ℤ)) : List Entry :=
  (formatResults md pairs).getD []

/-- The formatting loop together with the row each result came from (used to
state the tie-break ordering). -/
def searchWithRows (md : List Entry) (pairs : List (ℚ × ℤ)) : List (ℤ × Entry) :=
  pairs.filterMap (fun q =>
    if q.2 < (md.length : ℤ) then
      (pyGet md q.2).map
        (fun e => (q.2, { e with similarity_score := some (similarity q.1) }))
    else none)

/-- The similarity score a search result carries. -/
def simOf (e : Entry) : ℚ := e.similarity_score.getD 0

/-- `SearchEngine.search` with the engine state threaded explicitly through
the loop, to state its effect on the state.  Each iteration binds
`result = self.metadata[idx].copy()` and sets the similarity key on that
copy, so the list the state holds is handed on as is; the `except` arm
returns `[]` with whatever state the loop reached. -/
def searchLoopSt (md : List Entry) :
    List (ℚ × ℤ) → Option (List Entry) × List Entry
  | [] => (some [], md)
  | (d, idx) :: rest =>
    if idx < (md.length : ℤ) then
      match pyGet md idx with
      | none => (none, md)
      | some e =>
        let result := { e with similarity_score := some (similarity d) }
        let step := searchLoopSt md rest
        (step.1.map (fun rs => result :: rs), step.2)
    else searchLoopSt md rest

/-- `SearchEngine.search`, state-passing version: the results and the engine
state after the call. -/
def searchSt (eng : EngineState) (pairs : List (ℚ × ℤ)) :
    List Entry × EngineState :=
  let step := searchLoopSt eng.metadata pairs
  (step.1.getD [], { index := eng.index, metadata := step.2 })

/-- The result loop of the `/search` endpoint of `app/main.py` (lines
176-184), for contrast: there `result = metadata[idx]` takes the dict itself
rather than a copy, and `result['similarity_score'] = ...` therefore updates
the ledger entry in place. -/
def mainSearchLoop (md : List Entry) :
    List (ℚ × ℤ) → Option (List Entry) × List Entry
  | [] => (some [], md)
  | (d, idx) :: rest =>
    if idx < (md.length : ℤ) then
      match pyGet md idx with
      | none => (none, md)
      | some e =>
        let result := { e with similarity_score := some (similarity d) }
        let md1 := if idx < 0 then md.set ((md.length : ℤ) + idx).toNat result
                   else md.set idx.toNat result
        let step := mainSearchLoop md1 rest
        (step.1.map (fun rs => result :: rs), step.2)
    else mainSearchLoop md rest

/-! ## Concrete instances used by the counterexamples and witnesses -/

/-- A ledger entry of a previous run, as persisted in `metadata.json`. -/
def entry0 : Entry :=
  { video_id := "old", timestamp := 0, thumbnail_path := "thumbnails/old_0.jpg" }

/-- A consistent persisted state of a previous run: one index row, one ledger
entry, the referenced thumbnail present. -/
def disk0 : DiskState :=
  { indexFile := some [[1]]
    metadataFile := some [entry0]
    thumbFiles := ["thumbnails/old_0.jpg"] }

/-- A one-frame video to be processed on the next run. -/
def video1 : Video := { video_id := "new", frames := [⟨[2], false⟩], fps := 1 }

/-- A video with no frames (sampling yields nothing), to expose the bare
event order of one build iteration. -/
def videoA : Video := { video_id := "a", frames := [], fps := 1 }

/-- A persisted state as left by a crash after `VectorIndex.add` but before
the matching `MetadataLedger.append`: two index rows, one ledger entry. -/
def crashDisk : DiskState :=
  { indexFile := some [[1], [2]]
    metadataFile := some [entry0]
    thumbFiles := ["thumbnails/old_0.jpg"] }

/-- A 32-frame batch whose frame number 7 is corrupted. -/
def batch32 : List Frame :=
  (List.range 32).map (fun i =>
    { video_id := "v"
      timestamp := (i : ℚ)
      emb := [(i : ℚ)]
      corrupt := i == 7 })

/-- The pair `(row, result)` built for a valid `(distance, row)` pair: the
ledger entry at the row, copied, with the similarity score set (the lookup
is total here; the callers establish `0 ≤ row < len`). -/
def resultAt (md : List Entry) (q : ℚ × ℤ) : ℤ × Entry :=
  (q.2, { md.getD q.2.toNat default with similarity_score := some (similarity q.1) })

/-- An empty builder/disk pair (fresh run, nothing persisted). -/
def pEmpty : BuilderState × DiskState :=
  ({ index := [], metadata := [] },
   { indexFile := none, metadataFile := none, thumbFiles := [] })

/-- A three-frame batch (the middle frame corrupted), for the schedule
witness. -/
def batchW : List Frame :=
  [{ video_id := "w", timestamp := 0, emb := [3], corrupt := false },
   { video_id := "w", timestamp := 1, emb := [4], corrupt := true },
   { video_id := "w", timestamp := 2, emb := [5], corrupt := false }]

/-- An out-of-submission-order completion schedule for `batchW`. -/
def schedW : List ℕ := [2, 0, 1]

/-- A two-entry ledger for the search witness. -/
def mdW : List Entry :=
  [entry0,
   { video_id := "b", timestamp := 5, thumbnail_path := "thumbnails/b_5.jpg" }]

/-- Pairs as the index would return them for some query: sorted by ascending
distance with ties broken by ascending row; row 3 is out of range for
`mdW`. -/
def pairsW : List (ℚ × ℤ) := [(0, 0), (2, 1), (2, 3)]

/-- The single sampled frame of `video1` (frame 0, timestamp 0). -/
def frameNew : Frame := { video_id := "new", timestamp := 0, emb := [2], corrupt := false }

/-- An in-memory builder state whose metadata differs from what `disk0`
persists (one more entry), about to be checkpointed. -/
def stNew : BuilderState := { index := [[2]], metadata := [entry0, entry0] }

/-! ## Theorems -/

theorem sampleStep_eq_intFloor (fps : ℚ) : sampleStep fps = Int.floor (fps * 5) := by
  rw [sampleStep, Rat.floor_def', ← Rat.floor_def]

theorem sampleStep_thirty : sampleStep 30 = 150 := by
  rw [sampleStep_eq_intFloor]; norm_num

theorem sampleStep_ntsc : sampleStep (2997/100) = 149 := by
  rw [sampleStep_eq_intFloor]
  norm_num [Int.floor_eq_iff]

theorem round_ntsc : round ((2997/100 : ℚ) * 5) = 150 := by
  rw [round_eq]; norm_num [Int.floor_eq_iff]

theorem round_thirty : round ((30 : ℚ) * 5) = 150 := by
  rw [round_eq]; norm_num [Int.floor_eq_iff]

set_option maxRecDepth 10000 in
theorem sampledPositions_thirty : sampledPositions 1830 30 =
    [0, 150, 300, 450, 600, 750, 900, 1050, 1200, 1350, 1500, 1650, 1800] := by
  rw [sampledPositions]
  have h : ∀ n : ℕ, sampled 30 n = ((n : ℤ) % 150 == 0) := by
    intro n; rw [sampled, sampleStep_thirty]
  simp only [h]
  decide

/-- Claim C4, counterexample: at the NTSC frame rate 29.97 the code's
condition `frame_count % int(fps*5) == 0` samples frame 149 (since
`int(29.97 * 5) = 149`), while the claimed formula with
`round(29.97 * 5) = 150` does not sample it, so the sampled positions are
not those of the `round` formula for every fps. -/
theorem C4_counterexample :
    sampled (2997/100) 149 = true ∧ sampledSpec (2997/100) 149 = false := by
  constructor
  · rw [sampled, sampleStep_ntsc]; decide
  · rw [sampledSpec, round_ntsc]; decide

/-- Claim C4, amended: the code samples exactly the frames at positions with
`frame_count mod int(fps * 5) == 0` (truncation, not rounding); when
`fps * 5` is an integer — in particular at 30 fps — this agrees with the
`round` formula, and the 61-second 30 fps video (1830 frames) yields exactly
13 samples, at timestamps 0, 5, ..., 60 seconds. -/
theorem C4_amended_sampling :
    (∀ (fps : ℚ) (n : ℕ), sampled fps n = true ↔ (n : ℤ) % Int.floor (fps * 5) = 0) ∧
    (∀ n : ℕ, sampled 30 n = sampledSpec 30 n) ∧
    (sampledPositions 1830 30).length = 13 ∧
    sampleTimestamps 1830 30 = [0, 5, 10, 15, 20, 25, 30, 35, 40, 45, 50, 55, 60] := by
  refine ⟨fun fps n => ?_, fun n => ?_, ?_, ?_⟩
  · rw [sampled, sampleStep_eq_intFloor]
    exact beq_iff_eq
  · rw [sampled, sampledSpec, sampleStep_thirty, round_thirty]
  · rw [sampledPositions_thirty]; rfl
  · rw [sampleTimestamps, sampledPositions_thirty]
    norm_num

/-- Claim C9: a search against an empty ledger (the state of an empty index)
returns the empty result list for every sequence of returned pairs, whatever
the query modality was; no error reaches the caller (an `IndexError` raised
inside the loop is caught by the surrounding `except`, which returns `[]`). -/
theorem C9_empty_index_search : ∀ pairs : List (ℚ × ℤ), search [] pairs = [] := by
  intro pairs
  induction pairs with
  | nil => rfl
  | cons hd tl ih =>
    obtain ⟨d, idx⟩ := hd
    by_cases h : idx < ((List.length ([] : List Entry) : ℤ))
    · have h0 : pyGet ([] : List Entry) idx = none := by
        simp only [List.length_nil] at h
        simp only [pyGet, List.length_nil, Nat.cast_zero, zero_add]
        rw [if_pos (by omega : idx < 0), if_neg (by omega : ¬ (0:ℤ) ≤ idx)]
      simp only [search, formatResults, if_pos h, h0]
      rfl
    · simp only [search, formatResults, if_neg h] at ih ⊢
      exact ih

theorem searchLoopSt_spec (md : List Entry) (pairs : List (ℚ × ℤ)) :
    (searchLoopSt md pairs).2 = md ∧
    (searchLoopSt md pairs).1 = formatResults md pairs := by
  induction pairs with
  | nil => exact ⟨rfl, rfl⟩
  | cons hd tl ih =>
    obtain ⟨d, idx⟩ := hd
    by_cases h : idx < (md.length : ℤ)
    · cases hg : pyGet md idx with
      | none => simp [searchLoopSt, formatResults, if_pos h, hg]
      | some e => simp [searchLoopSt, formatResults, if_pos h, hg, ih.1, ih.2]
    · simpa [searchLoopSt, formatResults, if_neg h] using ih

/-- Claim C8: `SearchEngine.search` is read-only — for every query (whatever
pair list the embedded query produced from the index) and every ledger, the
engine state after the call (index rows and every ledger entry) is the state
before it, and this also holds on the error path (the `except` arm returns
`[]` without having touched the state); the results agree with the pure
result function. -/
theorem C8_search_readonly (eng : EngineState) (pairs : List (ℚ × ℤ)) :
    (searchSt eng pairs).2 = eng ∧
    (searchSt eng pairs).1 = search eng.metadata pairs := by
  obtain ⟨hst, hres⟩ := searchLoopSt_spec eng.metadata pairs
  refine ⟨?_, ?_⟩
  · show ({ index := eng.index, metadata := (searchLoopSt eng.metadata pairs).2 } : EngineState) = eng
    rw [hst]
  · show ((searchLoopSt eng.metadata pairs).1).getD [] = search eng.metadata pairs
    rw [hres, search]

theorem filterMap_process_frame (b : List Frame) :
    b.filterMap process_frame = (b.filter (fun f => !f.corrupt)).map frameResultOf := by
  induction b with
  | nil => rfl
  | cons f t ih => by_cases h : f.corrupt <;> simp [process_frame, h, ih]

theorem process_batch_cons (f : Frame) (t : List Frame) (p : BuilderState × DiskState) :
    process_batch (f :: t) p = process_batch t (ingest p (process_frame f)) := rfl

theorem process_batch_spec (b : List Frame) (p : BuilderState × DiskState) :
    (process_batch b p).1.index
        = p.1.index ++ (b.filterMap process_frame).map (fun r => r.embedding) ∧
    (process_batch b p).1.metadata
        = p.1.metadata ++ (b.filterMap process_frame).map resultEntry ∧
    (process_batch b p).2.indexFile = p.2.indexFile ∧
    (process_batch b p).2.metadataFile = p.2.metadataFile ∧
    (process_batch b p).2.thumbFiles
        = p.2.thumbFiles ++ (b.filterMap process_frame).map (fun r => r.thumbnail_path) := by
  induction b generalizing p with
  | nil => simp [process_batch]
  | cons f t ih =>
    rw [process_batch_cons]
    by_cases h : f.corrupt
    · have hf : process_frame f = none := by simp [process_frame, h]
      simpa [hf, ingest] using ih p
    · have hf : process_frame f = some (frameResultOf f) := by simp [process_frame, h]
      obtain ⟨i1, i2, i3, i4, i5⟩ := ih (ingest p (process_frame f))
      rw [hf] at i1 i2 i3 i4 i5
      simp only [ingest] at i1 i2 i3 i4 i5
      simp [hf, ingest, i1, i2, i3, i4, i5]

theorem countP_not_corrupt (b : List Frame) :
    b.countP (fun f => !f.corrupt) + b.countP (fun f => f.corrupt) = b.length := by
  induction b with
  | nil => rfl
  | cons f t ih => by_cases h : f.corrupt <;> simp [List.countP_cons, h] <;> omega

/-- Claim C6: a frame whose processing fails is skipped and every other frame
of the batch is still processed and appended, in order, to both the index and
the metadata list; `process_batch` is total (a frame-level failure never
aborts the batch).  With exactly one corrupt frame in the batch, exactly
`batch.length - 1` new rows and entries are produced (31 of 32 in the
scenario of the witness below). -/
theorem C6_one_corrupt_frame (b : List Frame) (p : BuilderState × DiskState)
    (h : b.countP (fun f => f.corrupt) = 1) :
    (process_batch b p).1.index
        = p.1.index ++ ((b.filter (fun f => !f.corrupt)).map frameResultOf).map
            (fun r => r.embedding) ∧
    (process_batch b p).1.metadata
        = p.1.metadata ++ ((b.filter (fun f => !f.corrupt)).map frameResultOf).map
            resultEntry ∧
    ((process_batch b p).1.metadata).length = p.1.metadata.length + (b.length - 1) ∧
    ((process_batch b p).1.index).length = p.1.index.length + (b.length - 1) := by
  obtain ⟨h1, h2, _, _, _⟩ := process_batch_spec b p
  rw [filterMap_process_frame] at h1 h2
  have hlen : (b.filter (fun f => !f.corrupt)).length = b.length - 1 := by
    rw [← List.countP_eq_length_filter]
    have := countP_not_corrupt b
    omega
  refine ⟨h1, h2, ?_, ?_⟩
  · rw [h2]; simp [hlen]
  · rw [h1]; simp [hlen]

/-- Witness for C6: a concrete 32-frame batch whose frame number 7 is
corrupt, processed from the empty state, yields exactly 31 ledger entries
and 31 index rows. -/
theorem C6_witness :
    batch32.countP (fun f => f.corrupt) = 1 ∧
    ((process_batch batch32 pEmpty).1.metadata).length
        = pEmpty.1.metadata.length + (batch32.length - 1) :=
  ⟨by decide, (C6_one_corrupt_frame batch32 pEmpty (by decide)).2.2.1⟩

theorem foldl_set_length (g : ℕ → α) (σ : List ℕ) (init : List α) :
    (σ.foldl (fun l i => l.set i (g i)) init).length = init.length := by
  induction σ generalizing init with
  | nil => rfl
  | cons i rest ih => rw [List.foldl_cons, ih, List.length_set]

theorem foldl_set_get_of_not_mem (g : ℕ → α) (σ : List ℕ) (init : List α) (j : ℕ)
    (hmem : j ∉ σ) :
    (σ.foldl (fun l i => l.set i (g i)) init)[j]? = init[j]? := by
  induction σ generalizing init with
  | nil => rfl
  | cons i rest ih =>
    have hij : i ≠ j := fun he => hmem (he ▸ List.mem_cons_self i rest)
    rw [List.foldl_cons, ih _ (fun hr => hmem (List.mem_cons_of_mem _ hr)),
      List.getElem?_set_ne hij]

theorem foldl_set_get (g : ℕ → α) (σ : List ℕ) (init : List α) (j : ℕ)
    (hj : j < init.length) (hmem : j ∈ σ) :
    (σ.foldl (fun l i => l.set i (g i)) init)[j]? = some (g j) := by
  induction σ generalizing init with
  | nil => cases hmem
  | cons i rest ih =>
    rw [List.foldl_cons]
    by_cases hr : j ∈ rest
    · exact ih _ (by simpa using hj) hr
    · have hij : j = i := by
        rcases List.mem_cons.1 hmem with h1 | h2
        · exact h1
        · exact absurd h2 hr
      subst hij
      rw [foldl_set_get_of_not_mem _ _ _ _ hr, List.getElem?_set_self hj]

theorem runSchedule_complete (b : List Frame) (σ : List ℕ)
    (hσ : ∀ j, j < b.length → j ∈ σ) :
    (runSchedule b σ).map (fun s => s.getD none) = b.map process_frame := by
  apply List.ext_getElem?_iff.mpr
  intro j
  rw [List.getElem?_map, List.getElem?_map]
  by_cases hj : j < b.length
  · rw [runSchedule, foldl_set_get _ _ _ _ (by simpa using hj) (hσ j hj),
      List.getElem?_eq_getElem hj]
    simp [List.getD_eq_getElem b default hj, List.getElem?_eq_getElem hj]
  · have h1 : (runSchedule b σ).length = b.length := by
      rw [runSchedule, foldl_set_length, List.length_replicate]
    rw [List.getElem?_eq_none_iff.mpr (by omega), List.getElem?_eq_none_iff.mpr (by omega)]
    rfl

/-- Claim C10: the batch results are collected in submission order —
processing under any completion schedule that finishes every task yields
exactly the sequential state, and the entries appended to the ledger are the
batch's successful frames in sampling order, so strictly ascending batch
timestamps stay strictly ascending in the appended ledger suffix. -/
theorem C10_submission_order (b : List Frame) (σ : List ℕ)
    (p : BuilderState × DiskState) (hσ : ∀ j, j < b.length → j ∈ σ) :
    process_batch_sched b σ p = process_batch b p ∧
    (process_batch b p).1.metadata
      = p.1.metadata ++ (b.filter (fun f => !f.corrupt)).map
          (fun f => resultEntry (frameResultOf f)) ∧
    ((b.map (fun f => f.timestamp)).Pairwise (· < ·) →
      ((((process_batch b p).1.metadata).drop p.1.metadata.length).map
          (fun e => e.timestamp)).Pairwise (· < ·)) := by
  have h2 := (process_batch_spec b p).2.1
  rw [filterMap_process_frame, List.map_map] at h2
  refine ⟨?_, h2, ?_⟩
  · rw [process_batch_sched, process_batch, runSchedule_complete b σ hσ]
  · intro hts
    rw [h2, List.drop_left, List.map_map]
    have hb : b.Pairwise (fun f g : Frame => f.timestamp < g.timestamp) :=
      List.pairwise_map.1 hts
    exact List.pairwise_map.2 ((hb.filter _).imp (fun h => h))

/-- Witness for C10: the three-frame batch `batchW` under the out-of-order
completion schedule `schedW` (which completes every task). -/
theorem C10_witness :
    (∀ j, j < batchW.length → j ∈ schedW) ∧
    (process_batch_sched batchW schedW pEmpty = process_batch batchW pEmpty ∧
     (process_batch batchW pEmpty).1.metadata
       = pEmpty.1.metadata ++ (batchW.filter (fun f => !f.corrupt)).map
           (fun f => resultEntry (frameResultOf f)) ∧
     ((batchW.map (fun f => f.timestamp)).Pairwise (· < ·) →
       ((((process_batch batchW pEmpty).1.metadata).drop
           pEmpty.1.metadata.length).map (fun e => e.timestamp)).Pairwise (· < ·))) :=
  ⟨by decide, C10_submission_order batchW schedW pEmpty (by decide)⟩

theorem similarity_mem_Ioc (d : ℚ) (hd : 0 ≤ d) :
    0 < similarity d ∧ similarity d ≤ 1 := by
  unfold similarity
  constructor
  · positivity
  · rw [div_le_one (by linarith)]
    linarith

theorem similarity_strict_anti (d₁ d₂ : ℚ) (h0 : 0 ≤ d₁) (h : d₁ < d₂) :
    similarity d₂ < similarity d₁ := by
  unfold similarity
  exact one_div_lt_one_div_of_lt (by linarith) (by linarith)

theorem pyGet_nonneg (l : List α) (i : ℤ) (h : 0 ≤ i) : pyGet l i = l.get? i.toNat := by
  rw [pyGet, if_neg (by omega)]

theorem searchWithRows_eq_filter (md : List Entry) (pairs : List (ℚ × ℤ))
    (hr : ∀ q ∈ pairs, 0 ≤ q.2) :
    searchWithRows md pairs
      = (pairs.filter (fun q => decide (q.2 < (md.length : ℤ)))).map (resultAt md) := by
  induction pairs with
  | nil => rfl
  | cons q rest ih =>
    have hq : (0:ℤ) ≤ q.2 := hr q (List.mem_cons_self q rest)
    have ihr := ih (fun x hx => hr x (List.mem_cons_of_mem _ hx))
    by_cases h : q.2 < (md.length : ℤ)
    · have hlt : q.2.toNat < md.length := by omega
      have hget : pyGet md q.2 = some (md.get ⟨q.2.toNat, hlt⟩) := by
        rw [pyGet_nonneg md q.2 hq, List.get?_eq_get hlt]
      rw [searchWithRows, List.filterMap_cons, List.filter_cons]
      simp only [if_pos h, hget, Option.map_some', decide_eq_true_eq, h, if_true,
        List.map_cons]
      refine congrArg₂ _ ?_ (by simpa [searchWithRows] using ihr)
      simp [resultAt, List.get_eq_getElem, List.getElem?_eq_getElem hlt]
    · rw [searchWithRows, List.filterMap_cons, List.filter_cons]
      simp only [if_neg h, decide_eq_true_eq, h, if_false]
      simpa [searchWithRows] using ihr

theorem formatResults_eq (md : List Entry) (pairs : List (ℚ × ℤ))
    (hr : ∀ q ∈ pairs, 0 ≤ q.2) :
    formatResults md pairs = some ((searchWithRows md pairs).map Prod.snd) := by
  induction pairs with
  | nil => rfl
  | cons q rest ih =>
    obtain ⟨d, idx⟩ := q
    have hq : (0:ℤ) ≤ idx := hr _ (List.mem_cons_self _ rest)
    have ihr := ih (fun x hx => hr x (List.mem_cons_of_mem _ hx))
    by_cases h : idx < (md.length : ℤ)
    · have hlt : idx.toNat < md.length := by omega
      have hget : pyGet md idx = some (md.get ⟨idx.toNat, hlt⟩) := by
        rw [pyGet_nonneg md idx hq, List.get?_eq_get hlt]
      simp [formatResults, if_pos h, hget, ihr, searchWithRows, List.filterMap_cons]
    · simp [formatResults, if_neg h, ihr, searchWithRows, List.filterMap_cons, h]

/-- Claim C5: for every query and `top_k`, over the pairs the index search
returned (at most `top_k` of them, nonnegative L2 distances, sorted by
ascending distance with ties by ascending row), `SearchEngine.search`
returns at most `top_k` results; every row that is not a valid ledger
position is dropped rather than raising (exactly one result per in-range
pair); every result carries `similarity_score = 1 / (1 + distance)`, which
lies in `(0, 1]`; the mapping is monotonically decreasing in distance; and
the results are ordered by descending similarity with ties broken by
ascending row position. -/
theorem C5_search_results (md : List Entry) (pairs : List (ℚ × ℤ)) (k : ℕ)
    (hk : pairs.length ≤ k)
    (hd : ∀ q ∈ pairs, 0 ≤ q.1)
    (hr : ∀ q ∈ pairs, 0 ≤ q.2)
    (hs : pairs.Pairwise (fun a b => a.1 < b.1 ∨ (a.1 = b.1 ∧ a.2 ≤ b.2))) :
    search md pairs = (searchWithRows md pairs).map Prod.snd ∧
    (search md pairs).length ≤ k ∧
    (searchWithRows md pairs).length
        = (pairs.filter (fun q => decide (q.2 < (md.length : ℤ)))).length ∧
    (∀ e ∈ search md pairs, ∃ s, e.similarity_score = some s ∧ 0 < s ∧ s ≤ 1) ∧
    (∀ d₁ d₂ : ℚ, 0 ≤ d₁ → d₁ < d₂ → similarity d₂ < similarity d₁) ∧
    (searchWithRows md pairs).Pairwise
      (fun a b => simOf b.2 < simOf a.2 ∨ (simOf a.2 = simOf b.2 ∧ a.1 ≤ b.1)) := by
  have hsw := searchWithRows_eq_filter md pairs hr
  have hsearch : search md pairs = (searchWithRows md pairs).map Prod.snd := by
    rw [search, formatResults_eq md pairs hr]
    rfl
  refine ⟨hsearch, ?_, ?_, ?_, fun d₁ d₂ h0 h => similarity_strict_anti d₁ d₂ h0 h, ?_⟩
  · rw [hsearch, List.length_map, hsw, List.length_map]
    exact le_trans (List.length_filter_le _ _) hk
  · rw [hsw, List.length_map]
  · intro e he
    rw [hsearch, hsw, List.map_map] at he
    obtain ⟨q, hq, hqe⟩ := List.mem_map.1 he
    have hqp : q ∈ pairs := List.mem_of_mem_filter hq
    refine ⟨similarity q.1, ?_, (similarity_mem_Ioc q.1 (hd q hqp)).1,
      (similarity_mem_Ioc q.1 (hd q hqp)).2⟩
    rw [← hqe]
    rfl
  · rw [hsw]
    refine List.pairwise_map.2 ?_
    have hs' := List.Pairwise.and_mem.1 hs
    refine List.Pairwise.imp ?_ (hs'.filter _)
    rintro a b ⟨ha, hb, hab⟩
    rcases hab with hlt | ⟨heq, hle⟩
    · left
      simpa [simOf, resultAt] using similarity_strict_anti a.1 b.1 (hd a ha) hlt
    · right
      constructor
      · simp [simOf, resultAt, heq]
      · simpa [resultAt] using hle

/-- Witness for C5: the concrete ledger `mdW` and pair list `pairsW` (three
pairs, nonnegative sorted distances, one out-of-range row) with
`top_k = 3`. -/
theorem C5_witness :
    (pairsW.length ≤ 3 ∧ (∀ q ∈ pairsW, 0 ≤ q.1) ∧ (∀ q ∈ pairsW, 0 ≤ q.2) ∧
      pairsW.Pairwise (fun a b => a.1 < b.1 ∨ (a.1 = b.1 ∧ a.2 ≤ b.2))) ∧
    (search mdW pairsW = (searchWithRows mdW pairsW).map Prod.snd ∧
     (search mdW pairsW).length ≤ 3 ∧
     (searchWithRows mdW pairsW).length
         = (pairsW.filter (fun q => decide (q.2 < (mdW.length : ℤ)))).length ∧
     (∀ e ∈ search mdW pairsW, ∃ s, e.similarity_score = some s ∧ 0 < s ∧ s ≤ 1) ∧
     (∀ d₁ d₂ : ℚ, 0 ≤ d₁ → d₁ < d₂ → similarity d₂ < similarity d₁) ∧
     (searchWithRows mdW pairsW).Pairwise
       (fun a b => simOf b.2 < simOf a.2 ∨ (simOf a.2 = simOf b.2 ∧ a.1 ≤ b.1))) :=
  ⟨⟨by decide, by decide, by decide, by decide⟩,
   C5_search_results mdW pairsW 3 (by decide) (by decide) (by decide) (by decide)⟩

theorem sampleStep_one : sampleStep 1 = 5 := by
  rw [sampleStep_eq_intFloor]; norm_num

theorem sampled_one_zero : sampled 1 0 = true := by
  rw [sampled, sampleStep_one]; decide

theorem sampleFrames_video1 : sampleFrames video1 = [frameNew] := by
  rw [sampleFrames, video1, frameNew]
  simp [List.enum, List.enumFrom, sampled_one_zero]

/-- Claim C1 (evaluation at the failing input): the count-parity invariant is
already broken at load time when the builder is constructed over an existing
persisted ledger — `__init__` reloads `metadata.json` but creates a fresh
empty FAISS index instead of reloading `faiss_index.bin` — and it stays
broken at the next checkpoint: starting from the consistent persisted state
`disk0` (1 row, 1 entry) and processing the one-frame video `video1`, the
state persisted by `save_progress` has 1 index row against 2 ledger entries,
and the code's own `verify_database` rejects it. -/
theorem C1_resume_breaks_invariant :
    (builderInit disk0).index.length = 0 ∧
    (builderInit disk0).metadata.length = 1 ∧
    ((build_database noFail [video1] (builderInit disk0, disk0)).2.indexFile.getD []).length
        = 1 ∧
    ((build_database noFail [video1] (builderInit disk0, disk0)).2.metadataFile.getD []).length
        = 2 ∧
    verify_database (build_database noFail [video1] (builderInit disk0, disk0)).1
        (build_database noFail [video1] (builderInit disk0, disk0)).2 = false := by
  have hrun : build_database noFail [video1] (builderInit disk0, disk0)
      = ({ index := [[2]], metadata := [entry0, resultEntry (frameResultOf frameNew)] },
         { indexFile := some [[2]]
           metadataFile := some [entry0, resultEntry (frameResultOf frameNew)]
           thumbFiles := disk0.thumbFiles ++ [(frameResultOf frameNew).thumbnail_path] }) := by
    rw [build_database, List.foldl_cons, List.foldl_nil, process_video, sampleFrames_video1]
    simp [chunksOf, chunksOfAux, batch_size, process_batch, process_frame, frameNew,
      ingest, save_progress, noFail, builderInit, disk0, frameResultOf]
  rw [hrun]
  refine ⟨rfl, rfl, rfl, rfl, rfl⟩

theorem build_database_events_eq (videos : List Video) :
    build_database_events videos
      = videos.flatMap (fun v => process_video_events v ++ save_progress_events) := by
  rw [build_database_events]
  suffices h : ∀ acc : List Ev,
      videos.foldl (fun acc v => acc ++ process_video_events v ++ save_progress_events) acc
        = acc ++ videos.flatMap (fun v => process_video_events v ++ save_progress_events) by
    simpa using h []
  induction videos with
  | nil => intro acc; simp
  | cons v t ih =>
    intro acc
    rw [List.foldl_cons, ih, List.flatMap_cons]
    simp [List.append_assoc]

/-- Claim C2 (counterexample): in the concrete one-video build trace the
source-file deletion is the first event, strictly before the index and
ledger writes of the checkpoint, and the trace contains neither a
temporary-file write nor a rename — so the source asset is deleted before
its state has been persisted, and there is no write-to-temp-then-rename. -/
theorem C2_counterexample :
    build_database_events [videoA]
      = [Ev.deleteSource "a", Ev.writeIndexFile, Ev.writeMetadataFile] ∧
    Ev.renameIndexFile ∉ build_database_events [videoA] ∧
    Ev.renameMetadataFile ∉ build_database_events [videoA] ∧
    Ev.writeTmpIndexFile ∉ build_database_events [videoA] ∧
    Ev.writeTmpMetadataFile ∉ build_database_events [videoA] := by
  refine ⟨by decide, by decide, by decide, by decide, by decide⟩

/-- Claim C2, amended: for every processed video the source file is deleted
at the end of `process_video`, strictly before `save_progress` writes the
index and ledger directly to their final paths; the build trace never
contains a temporary-file write or a rename. -/
theorem C2_amended_delete_before_write (videos : List Video) (v : Video)
    (hv : v ∈ videos) :
    List.Sublist [Ev.deleteSource v.video_id, Ev.writeIndexFile]
      (build_database_events videos) ∧
    (∀ e ∈ build_database_events videos,
      e ≠ Ev.writeTmpIndexFile ∧ e ≠ Ev.writeTmpMetadataFile ∧
      e ≠ Ev.renameIndexFile ∧ e ≠ Ev.renameMetadataFile) := by
  rw [build_database_events_eq]
  constructor
  · have h1 : List.Sublist [Ev.deleteSource v.video_id, Ev.writeIndexFile]
        (process_video_events v ++ save_progress_events) := by
      rw [process_video_events, save_progress_events, List.append_assoc]
      refine List.Sublist.trans ?_ (List.sublist_append_right _ _)
      exact List.Sublist.cons₂ _ (List.Sublist.cons₂ _ (List.nil_sublist _))
    refine h1.trans ?_
    rw [List.flatMap]
    exact List.sublist_flatten_of_mem (List.mem_map_of_mem _ hv)
  · intro e he
    rw [List.mem_flatMap] at he
    obtain ⟨w, -, hw⟩ := he
    simp only [process_video_events, save_progress_events, List.mem_append,
      List.mem_map, List.mem_singleton, List.mem_cons, List.not_mem_nil,
      or_false] at hw
    rcases hw with (⟨f, -, rfl⟩ | rfl) | (rfl | rfl) <;>
      exact ⟨by simp, by simp, by simp, by simp⟩

/-- Witness for C2 (amended): the one-video build over `videoA`. -/
theorem C2_amended_witness :
    videoA ∈ [videoA] ∧
    (List.Sublist [Ev.deleteSource videoA.video_id, Ev.writeIndexFile]
        (build_database_events [videoA]) ∧
     (∀ e ∈ build_database_events [videoA],
       e ≠ Ev.writeTmpIndexFile ∧ e ≠ Ev.writeTmpMetadataFile ∧
       e ≠ Ev.renameIndexFile ∧ e ≠ Ev.renameMetadataFile)) :=
  ⟨List.mem_singleton_self videoA,
   C2_amended_delete_before_write [videoA] videoA (List.mem_singleton_self videoA)⟩

/-- Claim C3 (counterexample): the crash state `crashDisk` — one more index
row than ledger entries, as after a crash between `VectorIndex.add` and the
matching `MetadataLedger.append` — is reported as a failure by
`verify_database`, yet search is NOT refused: `SearchEngine.__init__` loads
exactly that inconsistent persisted state without any check, and a query
over it returns a nonempty result list. -/
theorem C3_counterexample :
    verify_database (builderInit crashDisk) crashDisk = false ∧
    searchEngineInit crashDisk
      = some { index := [[1], [2]], metadata := [entry0] } ∧
    search [entry0] [(0, 0)] ≠ [] := by
  refine ⟨by decide, rfl, ?_⟩
  simp [search, formatResults, pyGet, List.get?]

/-- Claim C3, amended: `verify_database` passes exactly when both database
files exist, the row count of the index reloaded from disk equals the length
of the in-memory ledger, and every thumbnail the in-memory ledger references
exists on disk — so the crash state with one extra index row is reported as
a failure — but nothing blocks serving: `SearchEngine.__init__` loads
whichever index and ledger files are present, with no verification, and its
search answers queries over them (dropping only out-of-range rows), as the
evaluation over the crash state shows. -/
theorem C3_amended_verify_no_gate (st : BuilderState) (disk : DiskState) :
    (verify_database st disk = true ↔
      ((disk.indexFile.getD []).length = st.metadata.length ∧
       disk.indexFile.isSome = true ∧ disk.metadataFile.isSome = true ∧
       ∀ e ∈ st.metadata, disk.thumbFiles.contains e.thumbnail_path = true)) ∧
    searchEngineInit disk
      = disk.indexFile.bind (fun idx => disk.metadataFile.map
          (fun md => { index := idx, metadata := md })) ∧
    verify_database (builderInit crashDisk) crashDisk = false ∧
    (searchEngineInit crashDisk).isSome = true ∧
    search ((searchEngineInit crashDisk).getD default).metadata [(0, 0)] ≠ [] := by
  obtain ⟨oidx, omd, ts⟩ := disk
  refine ⟨?_, ?_, by decide, by decide, ?_⟩
  · cases oidx with
    | none => simp [verify_database]
    | some loaded =>
      cases omd with
      | none => simp [verify_database]
      | some mdf =>
        by_cases h : loaded.length = st.metadata.length
        · simp [verify_database, h, List.all_eq_true]
        · simp [verify_database, h]
  · cases oidx <;> cases omd <;> rfl
  · simp [searchEngineInit, crashDisk, search, formatResults, pyGet, List.get?]

theorem process_batch_fst (b : List Frame) (p : BuilderState × DiskState) :
    (process_batch b p).1
      = { index := p.1.index ++ (b.filterMap process_frame).map (fun r => r.embedding)
          metadata := p.1.metadata ++ (b.filterMap process_frame).map resultEntry } := by
  obtain ⟨h1, h2, -, -, -⟩ := process_batch_spec b p
  calc (process_batch b p).1
      = { index := (process_batch b p).1.index
          metadata := (process_batch b p).1.metadata } := rfl
    _ = _ := by rw [h1, h2]

theorem foldl_batches_fst (L : List (List Frame)) (p q : BuilderState × DiskState)
    (h : p.1 = q.1) :
    (L.foldl (fun r b => process_batch b r) p).1
      = (L.foldl (fun r b => process_batch b r) q).1 := by
  induction L generalizing p q with
  | nil => exact h
  | cons b t ih =>
    refine ih _ _ ?_
    rw [process_batch_fst, process_batch_fst, h]

theorem process_video_fst (v : Video) (p q : BuilderState × DiskState)
    (h : p.1 = q.1) : (process_video v p).1 = (process_video v q).1 :=
  foldl_batches_fst _ p q h

theorem build_database_fst (w w' : WriteFailure) (videos : List Video)
    (p q : BuilderState × DiskState) (h : p.1 = q.1) :
    (build_database w videos p).1 = (build_database w' videos q).1 := by
  induction videos generalizing p q with
  | nil => exact h
  | cons v t ih =>
    rw [build_database, List.foldl_cons, build_database, List.foldl_cons]
    exact ih _ _ (process_video_fst v p q h)

/-- Claim C7 (counterexample): during the checkpoint of the state `stNew`
over the previously persisted `disk0`, let `faiss.write_index` succeed and
the `metadata.json` write raise: `save_progress` returns normally (the bare
`except` only logs), the index file has been replaced with the new rows but
the ledger file still holds the old entries — a partial commit, and no
build-fatal error is propagated. -/
theorem C7_counterexample :
    (save_progress ⟨false, true⟩ stNew disk0).indexFile = some stNew.index ∧
    (save_progress ⟨false, true⟩ stNew disk0).indexFile ≠ disk0.indexFile ∧
    (save_progress ⟨false, true⟩ stNew disk0).metadataFile = disk0.metadataFile ∧
    some stNew.metadata ≠ disk0.metadataFile :=
  ⟨by decide, by decide, by decide, by decide⟩

/-- Claim C7, amended: a disk-write failure during `save_progress` is caught
by the bare `except` and only logged — the call returns normally and the
build goes on exactly as with a successful checkpoint (the in-memory result
of the whole build is independent of write failures, so the error is
swallowed, not build-fatal); if the index write fails nothing is committed,
but if the index write succeeds and the metadata write fails the index file
alone is replaced — a partial commit. -/
theorem C7_amended_swallowed_partial_commit (st : BuilderState) (disk : DiskState)
    (w : WriteFailure) (videos : List Video) (p : BuilderState × DiskState) :
    save_progress ⟨true, true⟩ st disk = disk ∧
    save_progress ⟨true, false⟩ st disk = disk ∧
    (save_progress ⟨false, true⟩ st disk).indexFile = some st.index ∧
    (save_progress ⟨false, true⟩ st disk).metadataFile = disk.metadataFile ∧
    save_progress noFail st disk
      = { disk with indexFile := some st.index, metadataFile := some st.metadata } ∧
    (build_database w videos p).1 = (build_database noFail videos p).1 := by
  refine ⟨rfl, rfl, rfl, rfl, rfl, build_database_fst w noFail videos p p rfl⟩
